import Mathlib

/-!
# Verification of the ed25519-bench worker loop

Shallow embedding of `src/worker.ts`: a benchmark loop that repeatedly
generates data, hashes it, signs the hash with Ed25519 and verifies the
signature, feeding the four stage timings into exponential rolling
averages and posting a formatted status message every 100 samples.

Numbers that are JavaScript `number` values (timings, averages) are
modelled as exact rationals `ℚ`; machine timing values are oracle inputs
to the loop, so each loop iteration is driven by an `IterInput` record
carrying the four observed stage durations and the boolean verify result.
-/

/-- JavaScript word character, the `\w` class of the regex in
`numberWithCommas`: ASCII letters, digits and underscore. -/
def isWordChar (c : Char) : Bool := c.isAlphanum || c = '_'

/-- Length of the maximal run of decimal digits at the head of the list;
used to decide the `(\d{3})+(?!\d)` lookahead of `numberWithCommas`. -/
def leadingDigitCount : List Char → Nat
  | [] => 0
  | c :: cs => if c.isDigit then leadingDigitCount cs + 1 else 0

/-- Whether the regex `/\B(?=(\d{3})+(?!\d))/` of `numberWithCommas`
matches at the position whose preceding character is `prev` (`none` at
the start of the string) and whose remaining suffix is `rest`:
the position is not a word boundary, and the digit run that starts the
suffix is a positive multiple of three. -/
def commaHere (prev : Option Char) (rest : List Char) : Bool :=
  let wordBefore := match prev with
    | none => false
    | some c => isWordChar c
  let wordAfter := match rest with
    | [] => false
    | c :: _ => isWordChar c
  let d := leadingDigitCount rest
  wordBefore == wordAfter && decide (3 ≤ d) && d % 3 == 0

/-- Character-level engine of `numberWithCommas`: walk the string once,
inserting a comma at every position where the (empty-match, global)
regex matches; matching is against the original string, as in
`String.prototype.replace` with a zero-width global pattern. -/
def insertCommas : Option Char → List Char → List Char
  | _, [] => []
  | prev, c :: cs =>
    if commaHere prev (c :: cs) then ',' :: c :: insertCommas (some c) cs
    else c :: insertCommas (some c) cs

/-- `numberWithCommas(x)` from `src/worker.ts`:
`x.replace(/\B(?=(\d{3})+(?!\d))/g, ',')`. -/
def numberWithCommas (x : String) : String := String.mk (insertCommas none x.data)

/-- `String.prototype.padStart(len, c)`: left-pad to length `len` with
`c`; a string already at least that long is returned unchanged. -/
def padStart (s : String) (len : Nat) (c : Char) : String :=
  String.mk (List.replicate (len - s.length) c ++ s.data)

/-- Rounding used by `Number.prototype.toFixed`: nearest integer, ties
picking the larger candidate. -/
def jsRound (q : ℚ) : ℤ := ⌊q + 1 / 2⌋

/-- `Number.prototype.toFixed(d)` (ECMA-262), on the exact rational
model of the number: sign, integer part, dot, `d` zero-padded fraction
digits, with ties-up rounding of the magnitude. -/
def toFixed (q : ℚ) (d : Nat) : String :=
  (if q < 0 then "-" else "") ++
  Nat.repr ((jsRound ((if q < 0 then -q else q) * 10 ^ d)).toNat / 10 ^ d) ++ "." ++
  padStart (Nat.repr ((jsRound ((if q < 0 then -q else q) * 10 ^ d)).toNat % 10 ^ d)) d '0'

/-- `approxRollingAverage(avg, newSample, n)` from `src/worker.ts`:
`avg -= avg / n; avg += newSample / n; return avg`. -/
def approxRollingAverage (avg newSample n : ℚ) : ℚ :=
  let avg1 := avg - avg / n
  let avg2 := avg1 + newSample / n
  avg2

/-- `Array.prototype.join(sep)` on a list of strings. -/
def joinWith (sep : String) : List String → String
  | [] => ""
  | [x] => x
  | x :: y :: xs => x ++ sep ++ joinWith sep (y :: xs)

/-- The oracle data of one iteration of the `while` loop in `main`:
the four observed stage durations (the `timeBlock` elapsed times, in the
host's time unit) and the boolean returned by `Ed25519Wrapper.verify`. -/
structure IterInput where
  generateDataTime : ℚ
  hashDataTime : ℚ
  signDataTime : ℚ
  verifyTime : ℚ
  verifyResult : Bool
deriving DecidableEq

/-- The mutable state of `main`: the four rolling averages and
`totalSamples`, plus the observable output: `messages` posted with
`self.postMessage` and `errors` written with `console.error`, and
whether the loop has hit the `break` on a failed verification. -/
structure BenchState where
  generateDataAverage : ℚ
  hashDataAverage : ℚ
  signDataAverage : ℚ
  verifyAverage : ℚ
  totalSamples : ℕ
  messages : List String
  errors : List String
  failed : Bool
deriving DecidableEq

/-- State at entry of the `while` loop: all averages and the counter 0,
nothing emitted yet. -/
def benchInit : BenchState :=
  { generateDataAverage := 0
    hashDataAverage := 0
    signDataAverage := 0
    verifyAverage := 0
    totalSamples := 0
    messages := []
    errors := []
    failed := false }

/-- The status string built in `main` when `totalSamples % 100 === 0`:
the `.join(' ')` of the ten tokens, with the sample count zero-padded to
10 digits and comma-grouped, and each average printed via `toFixed(3)`,
comma-grouped, with an `ms` suffix. -/
def statusLine (st : BenchState) : String :=
  joinWith " "
    [ "totalSamples"
    , numberWithCommas (padStart (Nat.repr st.totalSamples) 10 '0')
    , "generate"
    , numberWithCommas (toFixed st.generateDataAverage 3) ++ "ms"
    , "hash"
    , numberWithCommas (toFixed st.hashDataAverage 3) ++ "ms"
    , "sign"
    , numberWithCommas (toFixed st.signDataAverage 3) ++ "ms"
    , "verify"
    , numberWithCommas (toFixed st.verifyAverage 3) ++ "ms" ]

/-- The four `approxRollingAverage` updates and the
`totalSamples += 1` increment performed after a successful verify. -/
def updateAverages (st : BenchState) (inp : IterInput) : BenchState :=
  { st with
    generateDataAverage := approxRollingAverage st.generateDataAverage inp.generateDataTime 100
    hashDataAverage := approxRollingAverage st.hashDataAverage inp.hashDataTime 100
    signDataAverage := approxRollingAverage st.signDataAverage inp.signDataTime 100
    verifyAverage := approxRollingAverage st.verifyAverage inp.verifyTime 100
    totalSamples := st.totalSamples + 1 }

/-- The tail of a successful iteration: update the averages and the
counter, then post the status line when the incremented counter is a
multiple of 100. -/
def stepSuccess (st : BenchState) (inp : IterInput) : BenchState :=
  let st1 := updateAverages st inp
  if st1.totalSamples % 100 = 0 then
    { st1 with messages := st1.messages ++ [statusLine st1] }
  else st1

/-- One iteration of the `while` loop body: if `verifyResult === false`,
log `'Failed to Verify'` and stop (the `break`); otherwise run the
success path and continue.  The second component is the continue flag. -/
def loopBody (st : BenchState) (inp : IterInput) : BenchState × Bool :=
  if inp.verifyResult = false then
    ({ st with errors := st.errors ++ ["Failed to Verify"], failed := true }, false)
  else
    (stepSuccess st inp, true)

/-- Run of the `while` loop over a finite prefix of the oracle trace:
consume iteration inputs until the list is exhausted (the loop is still
running) or a failed verification breaks out. -/
def runLoop (st : BenchState) : List IterInput → BenchState
  | [] => st
  | inp :: rest =>
    let next := loopBody st inp
    if next.2 then runLoop next.1 rest else next.1

/-- The value `main` resolves with, as a function of the oracle trace:
after a failed verification the loop breaks and `main` returns `0`;
while no verification has failed the loop is still running and `main`
has not returned (`none`). -/
def mainReturn (inputs : List IterInput) : Option ℕ :=
  if (runLoop benchInit inputs).failed then some 0 else none

/-- The process exit code set by the `require.main === module` bootstrap:
`process.exit(1)` when `main` rejected with an uncaught error, else
`process.exitCode = exitCode` with the value `main` resolved with. -/
def processExitCode : Except String ℕ → ℕ
  | Except.error _ => 1
  | Except.ok c => c

/-- Delete every comma of a string (used to state that
`numberWithCommas` only inserts commas). -/
def stripCommas (s : String) : String := String.mk (s.data.filter (fun c => !(c == ',')))

/-- A benign iteration input: verification succeeded. -/
def goodInput : IterInput :=
  { generateDataTime := 1, hashDataTime := 2, signDataTime := 3, verifyTime := 4
    verifyResult := true }

/-- An iteration input whose verification failed. -/
def badInput : IterInput :=
  { goodInput with verifyResult := false }

/-- The update rule exactly as the spec writes it, for the refinement
comparison of the rolling-average claims. -/
def specUpdateRule (avg s : ℚ) : ℚ := avg - avg / 100 + s / 100

lemma approxRollingAverage_eq (avg s n : ℚ) :
    approxRollingAverage avg s n = avg - avg / n + s / n := rfl

/-- **C2**: `approxRollingAverage(avg, s, 100)` equals
`avg - avg/100 + s/100`, and feeding any fixed sequence of 100 samples
to one stage average starting from 0 gives exactly the 100-fold
iteration of that rule from 0. -/
theorem approxRollingAverage_matches_spec_rule :
    (∀ avg s : ℚ, approxRollingAverage avg s 100 = avg - avg / 100 + s / 100) ∧
    (∀ f : Fin 100 → ℚ,
      (List.ofFn f).foldl (fun avg s => approxRollingAverage avg s 100) 0 =
        (List.ofFn f).foldl specUpdateRule 0) := by
  constructor
  · intro avg s
    rfl
  · intro f
    have h : ∀ (l : List ℚ) (a : ℚ),
        l.foldl (fun avg s => approxRollingAverage avg s 100) a = l.foldl specUpdateRule a := by
      intro l
      induction l with
      | nil => intro a; rfl
      | cons x xs ih =>
        intro a
        rw [List.foldl_cons, List.foldl_cons, ih]
        rfl
    exact h _ 0

/-- **C6**: formatting `totalSamples = 1234567` — decimal, zero-padded
to 10 digits, then comma-grouped — yields `"0,001,234,567"`. -/
theorem totalSamples_token_1234567 :
    numberWithCommas (padStart (Nat.repr 1234567) 10 '0') = "0,001,234,567" := by
  decide

lemma insertCommas_filter (cs : List Char) :
    ∀ prev, (insertCommas prev cs).filter (fun c => !(c == ',')) =
      cs.filter (fun c => !(c == ',')) := by
  induction cs with
  | nil => intro prev; rfl
  | cons c cs ih =>
    intro prev
    simp only [insertCommas]
    by_cases h : commaHere prev (c :: cs) = true
    · rw [if_pos h]
      simp [List.filter_cons, ih]
    · rw [if_neg h]
      simp [List.filter_cons, ih]

/-- **C10 counterexample**: on the input `","` — a string that already
contains a comma — deleting every comma from the output of
`numberWithCommas` does not recover the input. -/
theorem stripCommas_numberWithCommas_comma :
    stripCommas (numberWithCommas ",") ≠ "," := by
  decide

/-- **C10 (amended)**: `numberWithCommas` only inserts commas — the
output with all commas deleted equals the input with all commas
deleted, and for every comma-free input, deleting every comma from the
output recovers the input exactly. -/
theorem numberWithCommas_only_inserts_commas (x : String) :
    stripCommas (numberWithCommas x) = stripCommas x ∧
    (',' ∉ x.data → stripCommas (numberWithCommas x) = x) := by
  have hmain : stripCommas (numberWithCommas x) = stripCommas x := by
    simp only [stripCommas, numberWithCommas]
    rw [insertCommas_filter x.data none]
  refine ⟨hmain, fun h => ?_⟩
  rw [hmain]
  show String.mk (x.data.filter fun c => !(c == ',')) = x
  rw [List.filter_eq_self.mpr]
  intro a ha
  simp only [Bool.not_eq_eq_eq_not, Bool.not_true, beq_eq_false_iff_ne, ne_eq]
  exact fun heq => h (heq ▸ ha)

/-- Witness for the amended C10, at the comma-free input
`"0001234567"`. -/
theorem numberWithCommas_only_inserts_commas_witness :
    stripCommas (numberWithCommas "0001234567") = stripCommas "0001234567" ∧
    stripCommas (numberWithCommas "0001234567") = "0001234567" :=
  ⟨(numberWithCommas_only_inserts_commas "0001234567").1,
   (numberWithCommas_only_inserts_commas "0001234567").2 (by decide)⟩

/-- The stage average after 100 successive samples all equal to `5`,
starting from `0` — the scenario of claim C3. -/
def constantFiveAverage : ℚ :=
  (List.replicate 100 (5 : ℚ)).foldl (fun avg s => approxRollingAverage avg s 100) 0

lemma foldl_replicate_approx (c : ℚ) (m : ℕ) :
    ∀ a : ℚ, (List.replicate m c).foldl (fun avg s => approxRollingAverage avg s 100) a =
      (a - c) * (99 / 100 : ℚ) ^ m + c := by
  induction m with
  | zero =>
    intro a
    simp
  | succ m ih =>
    intro a
    rw [List.replicate_succ, List.foldl_cons, ih, approxRollingAverage_eq]
    ring

lemma constantFiveAverage_eq :
    constantFiveAverage = 5 * (1 - (99 / 100 : ℚ) ^ 100) := by
  unfold constantFiveAverage
  rw [foldl_replicate_approx]
  ring

lemma constantFiveAverage_nonneg : ¬ constantFiveAverage < 0 := by
  rw [constantFiveAverage_eq]
  norm_num

lemma constantFiveAverage_round : jsRound (constantFiveAverage * 10 ^ 3) = 3170 := by
  rw [constantFiveAverage_eq]
  unfold jsRound
  apply Int.floor_eq_iff.mpr
  constructor <;> norm_num

lemma constantFiveAverage_token :
    numberWithCommas (toFixed constantFiveAverage 3) ++ "ms" = "3.170ms" := by
  have h : toFixed constantFiveAverage 3 = "3.170" := by
    unfold toFixed
    simp only [if_neg constantFiveAverage_nonneg]
    rw [constantFiveAverage_round]
    decide
  rw [h]
  decide

/-- **C3 counterexample**: the average reached after 100 constant
samples of `5` does not format as `"3.205ms"`. -/
theorem constant_five_token_not_3205 :
    numberWithCommas (toFixed constantFiveAverage 3) ++ "ms" ≠ "3.205ms" := by
  rw [constantFiveAverage_token]
  decide

/-- **C3 (amended)**: feeding a stage average the constant sample `5`
for 100 updates starting from `0` yields exactly
`5 * (1 - (99/100)^100)` (≈ 3.170), and the reporter formats it as the
token `"3.170ms"`. -/
theorem constant_five_average_value :
    constantFiveAverage = 5 * (1 - (99 / 100 : ℚ) ^ 100) ∧
    numberWithCommas (toFixed constantFiveAverage 3) ++ "ms" = "3.170ms" :=
  ⟨constantFiveAverage_eq, constantFiveAverage_token⟩

lemma updateAverages_totalSamples (st : BenchState) (inp : IterInput) :
    (updateAverages st inp).totalSamples = st.totalSamples + 1 := rfl

lemma stepSuccess_messages (st : BenchState) (inp : IterInput) :
    (stepSuccess st inp).messages =
      if (st.totalSamples + 1) % 100 = 0
      then st.messages ++ [statusLine (updateAverages st inp)]
      else st.messages := by
  unfold stepSuccess
  by_cases h : (st.totalSamples + 1) % 100 = 0
  · rw [if_pos h, if_pos (show (updateAverages st inp).totalSamples % 100 = 0 from h)]
    rfl
  · rw [if_neg h, if_neg (show ¬ (updateAverages st inp).totalSamples % 100 = 0 from h)]
    rfl

lemma stepSuccess_totalSamples (st : BenchState) (inp : IterInput) :
    (stepSuccess st inp).totalSamples = st.totalSamples + 1 := by
  unfold stepSuccess
  by_cases h : (updateAverages st inp).totalSamples % 100 = 0
  · rw [if_pos h]
    rfl
  · rw [if_neg h]
    rfl

lemma stepSuccess_failed (st : BenchState) (inp : IterInput) :
    (stepSuccess st inp).failed = st.failed := by
  unfold stepSuccess
  by_cases h : (updateAverages st inp).totalSamples % 100 = 0
  · rw [if_pos h]
    rfl
  · rw [if_neg h]
    rfl

lemma stepSuccess_messages_length (st : BenchState) (inp : IterInput) :
    (stepSuccess st inp).messages.length =
      st.messages.length + (if (st.totalSamples + 1) % 100 = 0 then 1 else 0) := by
  rw [stepSuccess_messages]
  by_cases h : (st.totalSamples + 1) % 100 = 0
  · simp [h]
  · simp [h]

lemma loopBody_success (st : BenchState) (inp : IterInput) (hv : inp.verifyResult = true) :
    loopBody st inp = (stepSuccess st inp, true) := by
  simp [loopBody, hv]

lemma loopBody_failure (st : BenchState) (inp : IterInput) (hv : inp.verifyResult = false) :
    loopBody st inp =
      ({ st with errors := st.errors ++ ["Failed to Verify"], failed := true }, false) := by
  simp [loopBody, hv]

lemma runLoop_cons_success (st : BenchState) (inp : IterInput) (rest : List IterInput)
    (hv : inp.verifyResult = true) :
    runLoop st (inp :: rest) = runLoop (stepSuccess st inp) rest := by
  simp only [runLoop, loopBody_success st inp hv]
  simp

lemma runLoop_counts (inputs : List IterInput) :
    ∀ st : BenchState, (∀ inp ∈ inputs, inp.verifyResult = true) →
      (runLoop st inputs).totalSamples = st.totalSamples + inputs.length ∧
      (runLoop st inputs).messages.length + st.totalSamples / 100 =
        st.messages.length + (st.totalSamples + inputs.length) / 100 := by
  induction inputs with
  | nil =>
    intro st _
    simp [runLoop]
  | cons inp rest ih =>
    intro st h
    have hv : inp.verifyResult = true := h inp (List.mem_cons_self _ _)
    have hrest : ∀ i ∈ rest, i.verifyResult = true := fun i hi => h i (List.mem_cons_of_mem _ hi)
    obtain ⟨ht, hm⟩ := ih (stepSuccess st inp) hrest
    rw [stepSuccess_totalSamples] at ht hm
    rw [stepSuccess_messages_length] at hm
    rw [runLoop_cons_success st inp rest hv]
    refine ⟨by rw [ht, List.length_cons]; omega, ?_⟩
    rw [List.length_cons]
    by_cases hc : (st.totalSamples + 1) % 100 = 0
    · rw [if_pos hc] at hm
      omega
    · rw [if_neg hc] at hm
      omega

/-- **C5**: after a successfully verified iteration the status line is
posted exactly when the incremented `totalSamples` is a multiple of
100; consequently, over any all-verified trace from the initial state,
`totalSamples` counts the iterations and one message exists per 100 of
them. -/
theorem status_line_iff_multiple_of_100 :
    (∀ (st : BenchState) (inp : IterInput), inp.verifyResult = true →
      (loopBody st inp).1.messages =
        if (st.totalSamples + 1) % 100 = 0
        then st.messages ++ [statusLine (updateAverages st inp)]
        else st.messages) ∧
    (∀ inputs : List IterInput, (∀ inp ∈ inputs, inp.verifyResult = true) →
      (runLoop benchInit inputs).totalSamples = inputs.length ∧
      (runLoop benchInit inputs).messages.length = inputs.length / 100) := by
  constructor
  · intro st inp hv
    rw [loopBody_success st inp hv]
    exact stepSuccess_messages st inp
  · intro inputs h
    obtain ⟨ht, hm⟩ := runLoop_counts inputs benchInit h
    refine ⟨by simpa [benchInit] using ht, by simpa [benchInit] using hm⟩

/-- Witness for C5 at the initial state and a benign input. -/
theorem status_line_iff_multiple_of_100_witness :
    (loopBody benchInit goodInput).1.messages =
      (if (benchInit.totalSamples + 1) % 100 = 0
       then benchInit.messages ++ [statusLine (updateAverages benchInit goodInput)]
       else benchInit.messages) ∧
    (runLoop benchInit [goodInput]).totalSamples = [goodInput].length ∧
    (runLoop benchInit [goodInput]).messages.length = [goodInput].length / 100 :=
  ⟨status_line_iff_multiple_of_100.1 benchInit goodInput rfl,
   status_line_iff_multiple_of_100.2 [goodInput] (by decide)⟩

/-- **C1**: a failed verification logs `'Failed to Verify'` and breaks
the loop: the final state is exactly the state reached before the
failing iteration, with only the error log extended — the averages,
`totalSamples` and the posted messages are untouched, and the inputs
after the failing one are never processed. -/
theorem verify_failure_halts_loop (st : BenchState) (pre post : List IterInput)
    (bad : IterInput) (hpre : ∀ inp ∈ pre, inp.verifyResult = true)
    (hbad : bad.verifyResult = false) :
    runLoop st (pre ++ bad :: post) =
      { runLoop st pre with
        errors := (runLoop st pre).errors ++ ["Failed to Verify"]
        failed := true } := by
  induction pre generalizing st with
  | nil =>
    simp only [List.nil_append, runLoop, loopBody_failure st bad hbad]
    simp
  | cons p pre ih =>
    have hv : p.verifyResult = true := hpre p (List.mem_cons_self _ _)
    have hrest : ∀ inp ∈ pre, inp.verifyResult = true :=
      fun i hi => hpre i (List.mem_cons_of_mem _ hi)
    rw [List.cons_append, runLoop_cons_success st p (pre ++ bad :: post) hv,
      runLoop_cons_success st p pre hv]
    exact ih (stepSuccess st p) hrest

/-- Witness for C1: the failing input as the very first iteration. -/
theorem verify_failure_halts_loop_witness :
    runLoop benchInit ([] ++ badInput :: [goodInput]) =
      { runLoop benchInit [] with
        errors := (runLoop benchInit []).errors ++ ["Failed to Verify"]
        failed := true } :=
  verify_failure_halts_loop benchInit [] [goodInput] badInput (by simp) rfl

lemma runLoop_not_failed (inputs : List IterInput) :
    ∀ st : BenchState, (∀ inp ∈ inputs, inp.verifyResult = true) → st.failed = false →
      (runLoop st inputs).failed = false := by
  induction inputs with
  | nil =>
    intro st _ h
    exact h
  | cons inp rest ih =>
    intro st h hf
    have hv : inp.verifyResult = true := h inp (List.mem_cons_self _ _)
    rw [runLoop_cons_success st inp rest hv]
    exact ih (stepSuccess st inp) (fun i hi => h i (List.mem_cons_of_mem _ hi))
      ((stepSuccess_failed st inp).trans hf)

/-- **C4**: the bootstrap exits with code `1` exactly on an uncaught
fatal error; whenever `main` does return, the returned exit code is `0`
and the process exit code is `0`; and on any trace in which every
verification succeeds the loop never terminates, so the graceful exit
is unreachable. -/
theorem process_exit_codes :
    (∀ e : String, processExitCode (Except.error e) = 1) ∧
    (∀ (inputs : List IterInput) (c : ℕ), mainReturn inputs = some c →
      c = 0 ∧ processExitCode (Except.ok c) = 0) ∧
    (∀ inputs : List IterInput, (∀ inp ∈ inputs, inp.verifyResult = true) →
      mainReturn inputs = none) := by
  refine ⟨fun e => rfl, ?_, ?_⟩
  · intro inputs c h
    unfold mainReturn at h
    by_cases hf : (runLoop benchInit inputs).failed = true
    · rw [if_pos hf] at h
      cases h
      exact ⟨rfl, rfl⟩
    · rw [if_neg hf] at h
      cases h
  · intro inputs h
    unfold mainReturn
    rw [runLoop_not_failed inputs benchInit h rfl]
    simp

/-- Witness for C4: a fatal error, a failing trace, an all-good trace. -/
theorem process_exit_codes_witness :
    processExitCode (Except.error "Fatal") = 1 ∧
    (0 = 0 ∧ processExitCode (Except.ok 0) = 0) ∧
    mainReturn [goodInput] = none :=
  ⟨process_exit_codes.1 "Fatal",
   process_exit_codes.2.1 [badInput] 0 (by decide),
   process_exit_codes.2.2 [goodInput] (by decide)⟩

/-- **C7**: the status line is the space-joined token sequence
`totalSamples`, the padded comma-grouped count, then the label/value
pairs for `generate`, `hash`, `sign` and `verify` in that order, each
value printed with `toFixed(3)`, comma-grouped and suffixed `ms`; and
an iteration either posts nothing or posts exactly this line for the
updated state. -/
theorem status_message_tokens (st : BenchState) :
    statusLine st =
      "totalSamples" ++ " " ++ numberWithCommas (padStart (Nat.repr st.totalSamples) 10 '0')
        ++ " " ++ "generate" ++ " "
        ++ (numberWithCommas (toFixed st.generateDataAverage 3) ++ "ms") ++ " " ++ "hash" ++ " "
        ++ (numberWithCommas (toFixed st.hashDataAverage 3) ++ "ms") ++ " " ++ "sign" ++ " "
        ++ (numberWithCommas (toFixed st.signDataAverage 3) ++ "ms") ++ " " ++ "verify" ++ " "
        ++ (numberWithCommas (toFixed st.verifyAverage 3) ++ "ms") ∧
    ∀ inp : IterInput,
      (loopBody st inp).1.messages = st.messages ∨
      (loopBody st inp).1.messages = st.messages ++ [statusLine (updateAverages st inp)] := by
  constructor
  · simp only [statusLine, joinWith, String.append_assoc]
  · intro inp
    by_cases hv : inp.verifyResult = true
    · rw [loopBody_success st inp hv, stepSuccess_messages]
      by_cases hc : (st.totalSamples + 1) % 100 = 0
      · rw [if_pos hc]
        exact Or.inr rfl
      · rw [if_neg hc]
        exact Or.inl rfl
    · have hv' : inp.verifyResult = false := by
        revert hv
        cases inp.verifyResult <;> simp
      rw [loopBody_failure st inp hv']
      exact Or.inl rfl

lemma approx_between (avg s n : ℚ) (hn : 1 ≤ n) :
    min avg s ≤ approxRollingAverage avg s n ∧ approxRollingAverage avg s n ≤ max avg s := by
  have hn0 : (0 : ℚ) < n := lt_of_lt_of_le one_pos hn
  rcases le_total avg s with hc | hc
  · have hd0 : 0 ≤ (s - avg) / n := div_nonneg (by linarith) hn0.le
    have hd1 : (s - avg) / n ≤ s - avg := div_le_self (by linarith) hn
    have he : approxRollingAverage avg s n = avg + (s - avg) / n := by
      rw [approxRollingAverage_eq]
      ring
    rw [min_eq_left hc, max_eq_right hc, he]
    constructor <;> linarith
  · have hd0 : 0 ≤ (avg - s) / n := div_nonneg (by linarith) hn0.le
    have hd1 : (avg - s) / n ≤ avg - s := div_le_self (by linarith) hn
    have he : approxRollingAverage avg s n = avg - (avg - s) / n := by
      rw [approxRollingAverage_eq]
      ring
    rw [min_eq_right hc, max_eq_left hc, he]
    constructor <;> linarith

/-- All four timing samples of an iteration lie in `[0, M]`. -/
def inputBounded (M : ℚ) (inp : IterInput) : Prop :=
  0 ≤ inp.generateDataTime ∧ inp.generateDataTime ≤ M ∧
  0 ≤ inp.hashDataTime ∧ inp.hashDataTime ≤ M ∧
  0 ≤ inp.signDataTime ∧ inp.signDataTime ≤ M ∧
  0 ≤ inp.verifyTime ∧ inp.verifyTime ≤ M

instance (M : ℚ) (inp : IterInput) : Decidable (inputBounded M inp) := by
  unfold inputBounded
  infer_instance

/-- All four rolling averages of a state lie in `[0, M]`. -/
def averagesBounded (M : ℚ) (st : BenchState) : Prop :=
  0 ≤ st.generateDataAverage ∧ st.generateDataAverage ≤ M ∧
  0 ≤ st.hashDataAverage ∧ st.hashDataAverage ≤ M ∧
  0 ≤ st.signDataAverage ∧ st.signDataAverage ≤ M ∧
  0 ≤ st.verifyAverage ∧ st.verifyAverage ≤ M

instance (M : ℚ) (st : BenchState) : Decidable (averagesBounded M st) := by
  unfold averagesBounded
  infer_instance

lemma approx_step_bounded (avg s M : ℚ) (h0 : 0 ≤ avg) (h1 : avg ≤ M)
    (hs0 : 0 ≤ s) (hs1 : s ≤ M) :
    0 ≤ approxRollingAverage avg s 100 ∧ approxRollingAverage avg s 100 ≤ M := by
  obtain ⟨hl, hr⟩ := approx_between avg s 100 (by norm_num)
  have hmin : (0 : ℚ) ≤ min avg s := le_min h0 hs0
  have hmax : max avg s ≤ M := max_le h1 hs1
  exact ⟨le_trans hmin hl, le_trans hr hmax⟩

lemma stepSuccess_averages (st : BenchState) (inp : IterInput) :
    (stepSuccess st inp).generateDataAverage =
        approxRollingAverage st.generateDataAverage inp.generateDataTime 100 ∧
      (stepSuccess st inp).hashDataAverage =
        approxRollingAverage st.hashDataAverage inp.hashDataTime 100 ∧
      (stepSuccess st inp).signDataAverage =
        approxRollingAverage st.signDataAverage inp.signDataTime 100 ∧
      (stepSuccess st inp).verifyAverage =
        approxRollingAverage st.verifyAverage inp.verifyTime 100 := by
  unfold stepSuccess
  by_cases h : (updateAverages st inp).totalSamples % 100 = 0
  · rw [if_pos h]
    exact ⟨rfl, rfl, rfl, rfl⟩
  · rw [if_neg h]
    exact ⟨rfl, rfl, rfl, rfl⟩

lemma runLoop_averages_bounded (inputs : List IterInput) :
    ∀ (st : BenchState) (M : ℚ), (∀ inp ∈ inputs, inputBounded M inp) →
      averagesBounded M st → averagesBounded M (runLoop st inputs) := by
  induction inputs with
  | nil =>
    intro st M _ hst
    exact hst
  | cons inp rest ih =>
    intro st M h hst
    by_cases hv : inp.verifyResult = true
    · rw [runLoop_cons_success st inp rest hv]
      apply ih (stepSuccess st inp) M (fun i hi => h i (List.mem_cons_of_mem _ hi))
      obtain ⟨hg, hh, hs, hvv⟩ := stepSuccess_averages st inp
      obtain ⟨g0, g1, h0, h1, s0, s1, v0, v1⟩ := hst
      obtain ⟨ig0, ig1, ih0, ih1, is0, is1, iv0, iv1⟩ := h inp (List.mem_cons_self _ _)
      refine ⟨?_, ?_, ?_, ?_, ?_, ?_, ?_, ?_⟩
      · rw [hg]
        exact (approx_step_bounded _ _ _ g0 g1 ig0 ig1).1
      · rw [hg]
        exact (approx_step_bounded _ _ _ g0 g1 ig0 ig1).2
      · rw [hh]
        exact (approx_step_bounded _ _ _ h0 h1 ih0 ih1).1
      · rw [hh]
        exact (approx_step_bounded _ _ _ h0 h1 ih0 ih1).2
      · rw [hs]
        exact (approx_step_bounded _ _ _ s0 s1 is0 is1).1
      · rw [hs]
        exact (approx_step_bounded _ _ _ s0 s1 is0 is1).2
      · rw [hvv]
        exact (approx_step_bounded _ _ _ v0 v1 iv0 iv1).1
      · rw [hvv]
        exact (approx_step_bounded _ _ _ v0 v1 iv0 iv1).2
    · have hv' : inp.verifyResult = false := by
        revert hv
        cases inp.verifyResult <;> simp
      simp only [runLoop, loopBody_failure st inp hv']
      simp only [Bool.false_eq_true, if_false]
      exact hst

/-- **C9**: for `n ≥ 1` the rolling-average update stays between the
old average and the new sample; consequently, starting from the initial
state, as long as every timing sample of the trace lies in `[0, M]`
each of the four rolling averages stays in `[0, M]`. -/
theorem rolling_average_stays_bounded :
    (∀ avg s n : ℚ, 1 ≤ n →
      min avg s ≤ approxRollingAverage avg s n ∧ approxRollingAverage avg s n ≤ max avg s) ∧
    (∀ (inputs : List IterInput) (M : ℚ), 0 ≤ M → (∀ inp ∈ inputs, inputBounded M inp) →
      averagesBounded M (runLoop benchInit inputs)) := by
  refine ⟨fun avg s n hn => approx_between avg s n hn, ?_⟩
  intro inputs M hM h
  exact runLoop_averages_bounded inputs benchInit M h
    ⟨le_refl 0, hM, le_refl 0, hM, le_refl 0, hM, le_refl 0, hM⟩

/-- Witness for C9 at concrete arguments. -/
theorem rolling_average_stays_bounded_witness :
    (min (0 : ℚ) 1 ≤ approxRollingAverage 0 1 100 ∧
      approxRollingAverage 0 1 100 ≤ max (0 : ℚ) 1) ∧
    averagesBounded 4 (runLoop benchInit [goodInput]) :=
  ⟨rolling_average_stays_bounded.1 0 1 100 (by norm_num),
   rolling_average_stays_bounded.2 [goodInput] 4 (by norm_num) (by decide)⟩

/-- The order of the prime-order subgroup of the Ed25519 curve,
`ℓ = 2^252 + 27742317777372353535851937790883648493` (RFC 8032). -/
def ed25519Order : ℕ := 2 ^ 252 + 27742317777372353535851937790883648493

instance : NeZero ed25519Order := ⟨by unfold ed25519Order; norm_num⟩

section Ed25519

variable {G : Type} [AddCommGroup G]

/-- Modelled from the spec: `Ed25519Wrapper.sign` delegates to
`noble-ed25519`'s `sign`, whose code is an external dependency not in
`src/`.  Per the spec's §4.3 (deterministic Ed25519 signing), over an
abstract commutative group with base point `B`: the signature is
`(R, S)` with `R = r·B` for the (deterministically derived) nonce `r`,
and `S = r + H(R, A, M)·s mod ℓ`, where `A = s·B` is the public key
and `H` the scalar-valued hash of `R`, `A` and the digest `M`. -/
def edSign (B : G) (hash : G → G → List ℕ → ZMod ed25519Order)
    (privKey nonce : ZMod ed25519Order) (digest : List ℕ) : G × ZMod ed25519Order :=
  (nonce.val • B,
   nonce + hash (nonce.val • B) (privKey.val • B) digest * privKey)

/-- Modelled from the spec: `Ed25519Wrapper.getPublicKey` (external
`noble-ed25519`), the Ed25519 public key `A = s·B`. -/
def edPublicKey (B : G) (privKey : ZMod ed25519Order) : G := privKey.val • B

/-- Modelled from the spec: `Ed25519Wrapper.verify` (external
`noble-ed25519`), the Ed25519 verification equation
`S·B = R + H(R, A, M)·A`. -/
def edVerify [DecidableEq G] (B : G) (hash : G → G → List ℕ → ZMod ed25519Order)
    (publicKey : G) (sig : G × ZMod ed25519Order) (digest : List ℕ) : Bool :=
  decide (sig.2.val • B = sig.1 + (hash sig.1 publicKey digest).val • publicKey)

lemma nsmul_mod_order (B : G) (hB : ed25519Order • B = 0) (a : ℕ) :
    a • B = (a % ed25519Order) • B := by
  conv_lhs => rw [← Nat.mod_add_div a ed25519Order]
  rw [add_nsmul, mul_nsmul, hB, smul_zero, add_zero]

/-- **C8**: over any group in which the base point has order dividing
`ℓ`, verifying a signature produced by `sign` over a digest with a
private key, against the same digest and the derived public key,
returns `true` — for every key, nonce derivation, digest and hash. -/
theorem ed25519_sign_verify_roundtrip [DecidableEq G] (B : G)
    (hB : ed25519Order • B = 0) (hash : G → G → List ℕ → ZMod ed25519Order)
    (privKey nonce : ZMod ed25519Order) (digest : List ℕ) :
    edVerify B hash (edPublicKey B privKey) (edSign B hash privKey nonce digest) digest
      = true := by
  simp only [edVerify, edSign, edPublicKey, decide_eq_true_eq]
  rw [ZMod.val_add, ← nsmul_mod_order B hB, add_nsmul, ZMod.val_mul,
    ← nsmul_mod_order B hB, mul_comm, mul_nsmul]

end Ed25519

/-- Witness for C8 in the cyclic group `ZMod ℓ` generated by `1`. -/
theorem ed25519_sign_verify_roundtrip_witness :
    edVerify (1 : ZMod ed25519Order) (fun _ _ _ => 0)
      (edPublicKey (1 : ZMod ed25519Order) 2)
      (edSign (1 : ZMod ed25519Order) (fun _ _ _ => 0) 2 3 [1, 2, 3]) [1, 2, 3] = true :=
  ed25519_sign_verify_roundtrip 1
    (by rw [nsmul_eq_mul, mul_one]; exact ZMod.natCast_self _)
    (fun _ _ _ => 0) 2 3 [1, 2, 3]
